import Mathlib

/-!
Verification of `src/Synchronized.h` (WPILib): a RAII wrapper around the
VxWorks mutual-exclusion semaphore (`semLib`).

The header defines two classes:
* `ReentrantSemaphore` — owns one `SEM_ID` created by
  `semMCreate(SEM_Q_PRIORITY | SEM_DELETE_SAFE)`, deleted by `semDelete`,
  with `take()` forwarding to `semTake(m_semaphore, WAIT_FOREVER)` and
  `give()` forwarding to `semGive(m_semaphore)`.
* `Synchronized` — a scope guard whose constructor acquires the semaphore
  and whose destructor releases it (bodies declared in the header, defined
  outside the provided sources; modelled from the spec where noted).

The platform primitive (`semLib`) is an external collaborator; we model its
documented contract explicitly as an owner context plus a hold count, with a
process-wide `errno` slot and an event trace recording every call that
completes, so that "performs exactly one release" is a statement about the
trace.
-/

/-- Execution context (VxWorks task) identifier. -/
abbrev Ctx := Nat

/-- Native semaphore handle (`SEM_ID`). -/
abbrev SemId := Nat

/-- State of one mutual-exclusion (`semM`) semaphore: the owning context
(if held), the recursive hold count, and the option flags it was created
with.  A free semaphore has `owner = none` and `count = 0`. -/
structure SemState where
  owner : Option Ctx
  count : Nat
  options : Nat
deriving DecidableEq

/-- Events recording each completed `semLib` call on a handle. -/
inductive Event where
  | takeEv : SemId → Event
  | giveEv : SemId → Event
  | createEv : SemId → Event
  | deleteEv : SemId → Event
deriving DecidableEq

/-- The process-wide state: the existing semaphores, the next fresh handle,
the process-wide last-error slot (`errno`), and the call trace (most recent
first). -/
structure World where
  sems : SemId → Option SemState
  nextId : SemId
  errno : Nat
  trace : List Event

/-- Update one semaphore slot. -/
def setSem (w : World) (s : SemId) (x : Option SemState) : World :=
  { w with sems := fun i => if i = s then x else w.sems i }

/-- Record one event on the trace. -/
def pushEv (w : World) (e : Event) : World :=
  { w with trace := e :: w.trace }

/-- Handles at or beyond `nextId` are not yet allocated. -/
def World.wf (w : World) : Prop :=
  ∀ i, w.nextId ≤ i → w.sems i = none

@[simp] theorem setSem_sems (w : World) (s : SemId) (x : Option SemState) (i : SemId) :
    (setSem w s x).sems i = if i = s then x else w.sems i := rfl

@[simp] theorem setSem_trace (w : World) (s : SemId) (x : Option SemState) :
    (setSem w s x).trace = w.trace := rfl

@[simp] theorem setSem_errno (w : World) (s : SemId) (x : Option SemState) :
    (setSem w s x).errno = w.errno := rfl

@[simp] theorem pushEv_sems (w : World) (e : Event) : (pushEv w e).sems = w.sems := rfl

@[simp] theorem pushEv_trace (w : World) (e : Event) :
    (pushEv w e).trace = e :: w.trace := rfl

@[simp] theorem pushEv_errno (w : World) (e : Event) : (pushEv w e).errno = w.errno := rfl

/-! ### The `semLib` constants used by the header (`vxWorks.h` / `semLib.h`). -/

def OK : Int := 0
def ERROR : Int := -1
def WAIT_FOREVER : Int := -1
def NO_WAIT : Int := 0
def SEM_Q_PRIORITY : Nat := 1
def SEM_DELETE_SAFE : Nat := 4

/-- Platform error code: invalid object identifier. -/
def S_objLib_OBJ_ID_ERROR : Nat := 0x3d0001
/-- Platform error code: object unavailable (`NO_WAIT` take of a held lock). -/
def S_objLib_OBJ_UNAVAILABLE : Nat := 0x3d0002
/-- Platform error code: operation invalid for the semaphore state
(e.g. giving a mutex not owned by the caller). -/
def S_semLib_INVALID_OPERATION : Nat := 0x160068

/-- Modelled from the spec: `semMCreate` (external `semLib` collaborator,
spec §6 `create-reentrant-lock(flags) → handle`): allocates a fresh handle
holding a free mutual-exclusion semaphore with the given option flags. -/
def semMCreate (options : Nat) (w : World) : SemId × World :=
  (w.nextId,
    pushEv
      { setSem w w.nextId (some { owner := none, count := 0, options := options }) with
        nextId := w.nextId + 1 }
      (Event.createEv w.nextId))

/-- Modelled from the spec: `semTake` (external `semLib` collaborator, spec
§4.1/§5/§6 `blocking-acquire(handle) → status`).  Completing calls return
`some (status, world)`; `none` means the caller is still blocked.  A free
semaphore is granted (count 1); a semaphore already held by the caller is
re-entered (count + 1); one held by another context blocks the caller when
the timeout is `WAIT_FOREVER` and fails immediately under `NO_WAIT`; an
invalid handle fails with `errno` set. -/
def semTake (ctx : Ctx) (s : SemId) (timeout : Int) (w : World) :
    Option (Int × World) :=
  match w.sems s with
  | none =>
      some (ERROR, pushEv { w with errno := S_objLib_OBJ_ID_ERROR } (Event.takeEv s))
  | some st =>
    match st.owner with
    | none =>
        some (OK, pushEv (setSem w s (some { st with owner := some ctx, count := 1 }))
          (Event.takeEv s))
    | some c =>
        if c = ctx then
          some (OK, pushEv (setSem w s (some { st with count := st.count + 1 }))
            (Event.takeEv s))
        else if timeout = NO_WAIT then
          some (ERROR, pushEv { w with errno := S_objLib_OBJ_UNAVAILABLE } (Event.takeEv s))
        else
          none

/-- Modelled from the spec: `semGive` (external `semLib` collaborator, spec
§4.1/§6 `release(handle) → status`): releases one level of ownership held by
the caller (freeing the semaphore when the count reaches zero); giving a
semaphore one does not own, or an invalid handle, fails with `errno` set.
`semGive` never blocks. -/
def semGive (ctx : Ctx) (s : SemId) (w : World) : Int × World :=
  match w.sems s with
  | none =>
      (ERROR, pushEv { w with errno := S_objLib_OBJ_ID_ERROR } (Event.giveEv s))
  | some st =>
    match st.owner with
    | none => (ERROR, pushEv { w with errno := S_semLib_INVALID_OPERATION } (Event.giveEv s))
    | some c =>
      if c = ctx then
        if st.count ≤ 1 then
          (OK, pushEv (setSem w s (some { st with owner := none, count := 0 }))
            (Event.giveEv s))
        else
          (OK, pushEv (setSem w s (some { st with count := st.count - 1 }))
            (Event.giveEv s))
      else (ERROR, pushEv { w with errno := S_semLib_INVALID_OPERATION } (Event.giveEv s))

/-- Modelled from the spec: `semDelete` (external `semLib` collaborator,
spec §6 `destroy(handle)`): destroys the handle. -/
def semDelete (s : SemId) (w : World) : Int × World :=
  match w.sems s with
  | none =>
      (ERROR, pushEv { w with errno := S_objLib_OBJ_ID_ERROR } (Event.deleteEv s))
  | some _ => (OK, pushEv (setSem w s none) (Event.deleteEv s))

/-! ### `ReentrantSemaphore` (src/Synchronized.h lines 31–62). -/

/-- `class ReentrantSemaphore { ... SEM_ID m_semaphore; }`. -/
structure ReentrantSemaphore where
  m_semaphore : SemId
deriving DecidableEq

/-- `ReentrantSemaphore() { m_semaphore = semMCreate(SEM_Q_PRIORITY | SEM_DELETE_SAFE); }` -/
def ReentrantSemaphore.construct (w : World) : ReentrantSemaphore × World :=
  ({ m_semaphore := (semMCreate (SEM_Q_PRIORITY ||| SEM_DELETE_SAFE) w).1 },
    (semMCreate (SEM_Q_PRIORITY ||| SEM_DELETE_SAFE) w).2)

/-- `~ReentrantSemaphore() { semDelete(m_semaphore); }` (status discarded). -/
def ReentrantSemaphore.destruct (r : ReentrantSemaphore) (w : World) : World :=
  (semDelete r.m_semaphore w).2

/-- `int take() { return semTake(m_semaphore, WAIT_FOREVER); }`
The member object is returned unchanged alongside the status, reflecting
that the method body never assigns `m_semaphore`. -/
def ReentrantSemaphore.take (r : ReentrantSemaphore) (ctx : Ctx) (w : World) :
    Option (Int × ReentrantSemaphore × World) :=
  (semTake ctx r.m_semaphore WAIT_FOREVER w).map (fun p => (p.1, r, p.2))

/-- `int give() { return semGive(m_semaphore); }` -/
def ReentrantSemaphore.give (r : ReentrantSemaphore) (ctx : Ctx) (w : World) :
    Int × ReentrantSemaphore × World :=
  ((semGive ctx r.m_semaphore w).1, r, (semGive ctx r.m_semaphore w).2)

/-! ### `Synchronized` (src/Synchronized.h lines 82–92).

The header only declares the constructors and destructor; their bodies live
in a translation unit absent from the provided sources, so they are
modelled from the spec (§4.2). -/

/-- `class Synchronized { ... SEM_ID m_semaphore; }`. -/
structure Synchronized where
  m_semaphore : SemId
deriving DecidableEq

/-- Modelled from the spec: `Synchronized::Synchronized(SEM_ID)` — records
the handle and immediately performs a blocking acquire on it, discarding
the acquire status ("Construction does not return a status ... it proceeds
as if successful").  `none` means the constructor is still blocked inside
the acquire. -/
def Synchronized.construct (ctx : Ctx) (s : SemId) (w : World) :
    Option (Synchronized × World) :=
  (semTake ctx s WAIT_FOREVER w).map (fun p => ({ m_semaphore := s }, p.2))

/-- Modelled from the spec: `Synchronized::Synchronized(ReentrantSemaphore&)`
— resolves the handle of the given lock and proceeds as the raw-handle
constructor. -/
def Synchronized.constructFromRef (ctx : Ctx) (r : ReentrantSemaphore) (w : World) :
    Option (Synchronized × World) :=
  Synchronized.construct ctx r.m_semaphore w

/-- Modelled from the spec: `Synchronized::~Synchronized()` — performs
exactly one release on the recorded handle, discarding the status. -/
def Synchronized.destruct (ctx : Ctx) (g : Synchronized) (w : World) : World :=
  (semGive ctx g.m_semaphore w).2

/-- How a protected region's body leaves its scope: normal exit, early
return, or stack unwinding from a propagated failure. -/
inductive ExitPath where
  | normal
  | earlyReturn
  | unwind
deriving DecidableEq

/-- Modelled from the spec: a lexical `{ Synchronized _sync(s); body }`
block.  C++ runs the guard's destructor when control leaves the scope by
any path, so the guard's release follows the body unconditionally; the
body reports how it left (`ExitPath`). -/
def runScope (ctx : Ctx) (s : SemId) (body : World → World × ExitPath)
    (w : World) : Option (World × ExitPath) :=
  (Synchronized.construct ctx s w).map (fun p =>
    (Synchronized.destruct ctx p.1 (body p.2).1, (body p.2).2))

/-- Expansion of the convenience macros from src/Synchronized.h lines 14–15:
`CRITICAL_REGION(s)` expands to `{ Synchronized _sync(s);` and `END_REGION`
to `}`, so `CRITICAL_REGION(s) body END_REGION` is the block that
constructs a guard over `s`, runs the body, and destroys the guard when
the block closes. -/
def criticalRegionExpansion (ctx : Ctx) (s : SemId) (body : World → World × ExitPath)
    (w : World) : Option (World × ExitPath) :=
  (Synchronized.construct ctx s w).map (fun p =>
    (Synchronized.destruct ctx p.1 (body p.2).1, (body p.2).2))

/-- Count occurrences of one event in a trace. -/
def countEv (e : Event) : List Event → Nat
  | [] => 0
  | a :: tr => (if a = e then 1 else 0) + countEv e tr

@[simp] theorem countEv_nil (e : Event) : countEv e [] = 0 := rfl

@[simp] theorem countEv_cons (e a : Event) (tr : List Event) :
    countEv e (a :: tr) = (if a = e then 1 else 0) + countEv e tr := rfl

/-- A world with one free semaphore (handle 0, the header's option flags)
used to witness the theorems below on concrete inputs. -/
def initWorld : World :=
  { sems := fun i => if i = 0 then some { owner := none, count := 0, options := 5 } else none,
    nextId := 1, errno := 0, trace := [] }

/-! ### Helper lemmas about the primitives. -/

theorem semGive_trace (ctx : Ctx) (s : SemId) (w : World) :
    (semGive ctx s w).2.trace = Event.giveEv s :: w.trace := by
  rcases hw : w.sems s with _ | ⟨o, cnt, opts⟩
  · simp [semGive, hw]
  · rcases o with _ | c
    · simp [semGive, hw]
    · by_cases hc : c = ctx
      · by_cases hcnt : cnt ≤ 1 <;> simp [semGive, hw, hc, hcnt]
      · simp [semGive, hw, hc]

theorem semGive_sems_isSome (ctx : Ctx) (s : SemId) (w : World) (i : SemId) :
    ((semGive ctx s w).2.sems i).isSome = (w.sems i).isSome := by
  rcases hw : w.sems s with _ | ⟨o, cnt, opts⟩
  · simp [semGive, hw]
  · rcases o with _ | c
    · simp [semGive, hw]
    · by_cases hc : c = ctx
      · by_cases hcnt : cnt ≤ 1 <;> by_cases his : i = s <;>
          simp [semGive, hw, hc, hcnt, his]
      · simp [semGive, hw, hc]

theorem semTake_trace_of_some (ctx : Ctx) (s : SemId) (t : Int) (w : World)
    (p : Int × World) (h : semTake ctx s t w = some p) :
    p.2.trace = Event.takeEv s :: w.trace := by
  rcases hw : w.sems s with _ | ⟨o, cnt, opts⟩
  · simp [semTake, hw] at h
    subst h; simp
  · rcases o with _ | c
    · simp [semTake, hw] at h
      subst h; simp
    · by_cases hc : c = ctx
      · simp [semTake, hw, hc] at h
        subst h; simp
      · by_cases ht : t = NO_WAIT
        · simp [semTake, hw, hc, ht] at h
          subst h; simp
        · simp [semTake, hw, hc, ht] at h

theorem semTake_sems_isSome_of_some (ctx : Ctx) (s : SemId) (t : Int) (w : World)
    (p : Int × World) (h : semTake ctx s t w = some p) (i : SemId) :
    (p.2.sems i).isSome = (w.sems i).isSome := by
  rcases hw : w.sems s with _ | ⟨o, cnt, opts⟩
  · simp [semTake, hw] at h
    subst h; simp
  · rcases o with _ | c
    · simp [semTake, hw] at h
      subst h
      by_cases his : i = s <;> simp [his, hw]
    · by_cases hc : c = ctx
      · simp [semTake, hw, hc] at h
        subst h
        by_cases his : i = s <;> simp [his, hw]
      · by_cases ht : t = NO_WAIT
        · simp [semTake, hw, hc, ht] at h
          subst h; simp
        · simp [semTake, hw, hc, ht] at h

/-! ### C1 — the scope guard releases exactly once on every exit path. -/

/-- C1: for every `Synchronized` guard constructed over a lock, when the
guard's enclosing scope exits — with the body leaving by any `ExitPath`
(normal exit, early return, or stack unwinding from a propagated failure)
— the guard's destruction performs exactly one `semGive` on the recorded
handle: the final trace is the body's end trace with exactly one
additional `giveEv` for that handle, no more and no fewer. -/
theorem synchronized_scope_exactly_one_release
    (ctx : Ctx) (s : SemId) (body : World → World × ExitPath)
    (w w1 : World) (g : Synchronized)
    (hcon : Synchronized.construct ctx s w = some (g, w1)) :
    g.m_semaphore = s ∧
    runScope ctx s body w
      = some (Synchronized.destruct ctx g (body w1).1, (body w1).2) ∧
    (Synchronized.destruct ctx g (body w1).1).trace
      = Event.giveEv s :: (body w1).1.trace ∧
    countEv (Event.giveEv s) (Synchronized.destruct ctx g (body w1).1).trace
      = countEv (Event.giveEv s) (body w1).1.trace + 1 := by
  rcases hs : semTake ctx s WAIT_FOREVER w with _ | p
  · simp [Synchronized.construct, hs] at hcon
  · simp only [Synchronized.construct, hs, Option.map_some', Option.some.injEq,
      Prod.mk.injEq] at hcon
    obtain ⟨hg, hw1⟩ := hcon
    subst hg; subst hw1
    refine ⟨rfl, ?_, ?_, ?_⟩
    · simp only [runScope, Synchronized.construct, hs, Option.map_some']
    · exact semGive_trace ctx s (body p.2).1
    · have hd : Synchronized.destruct ctx { m_semaphore := s } (body p.2).1
          = (semGive ctx s (body p.2).1).2 := rfl
      rw [hd, semGive_trace]
      simp [Nat.add_comm]

/-- A trivial protected-region body that exits normally. -/
def bodyNormal : World → World × ExitPath := fun w => (w, ExitPath.normal)

/-- The world after context 0 takes semaphore 0 of `initWorld`. -/
def wTake0 : World := ((semTake 0 0 WAIT_FOREVER initWorld).getD (0, initWorld)).2

theorem synchronized_scope_exactly_one_release_witness :
    ({ m_semaphore := 0 } : Synchronized).m_semaphore = 0 ∧
    runScope 0 0 bodyNormal initWorld
      = some (Synchronized.destruct 0 { m_semaphore := 0 } (bodyNormal wTake0).1,
              (bodyNormal wTake0).2) ∧
    (Synchronized.destruct 0 { m_semaphore := 0 } (bodyNormal wTake0).1).trace
      = Event.giveEv 0 :: (bodyNormal wTake0).1.trace ∧
    countEv (Event.giveEv 0)
        (Synchronized.destruct 0 { m_semaphore := 0 } (bodyNormal wTake0).1).trace
      = countEv (Event.giveEv 0) (bodyNormal wTake0).1.trace + 1 :=
  synchronized_scope_exactly_one_release 0 0 bodyNormal initWorld wTake0
    { m_semaphore := 0 } rfl

/-! ### C4 — guard construction discards the acquire status. -/

/-- C4: every `Synchronized` construction (from a raw handle or from a
`ReentrantSemaphore` reference) performs the blocking acquire on the
resolved handle and discards the acquire's status: whatever status `st` the
acquire completed with — success or failure — construction yields the same
guard recording the handle and returns no status, so a caller relying
solely on the guard cannot observe acquire failure. -/
theorem synchronized_construct_discards_acquire_status
    (ctx : Ctx) (s : SemId) (w w1 : World) (st : Int) (r : ReentrantSemaphore)
    (htake : semTake ctx s WAIT_FOREVER w = some (st, w1)) :
    Synchronized.construct ctx s w = some ({ m_semaphore := s }, w1) ∧
    Synchronized.constructFromRef ctx r w
      = Synchronized.construct ctx r.m_semaphore w := by
  constructor
  · simp [Synchronized.construct, htake]
  · rfl

/-- Acquire status of context 0 taking the invalid handle 5 in `initWorld`
(a failing acquire). -/
def stTake5 : Int := ((semTake 0 5 WAIT_FOREVER initWorld).getD (0, initWorld)).1

/-- Resulting world of that failing acquire. -/
def wTake5 : World := ((semTake 0 5 WAIT_FOREVER initWorld).getD (0, initWorld)).2

theorem synchronized_construct_discards_acquire_status_witness :
    stTake5 = ERROR ∧
    (Synchronized.construct 0 5 initWorld = some ({ m_semaphore := 5 }, wTake5) ∧
     Synchronized.constructFromRef 0 { m_semaphore := 5 } initWorld
       = Synchronized.construct 0 5 initWorld) :=
  ⟨rfl,
    synchronized_construct_discards_acquire_status 0 5 initWorld wTake5 stTake5
      { m_semaphore := 5 } rfl⟩

/-! ### C6 — acquisition is unbounded (`WAIT_FOREVER`). -/

/-- C6: `ReentrantSemaphore::take` forwards to the platform acquire with
the unbounded timeout `WAIT_FOREVER` (there is no timeout option), and
under `WAIT_FOREVER` the acquire fails to complete (blocks) exactly when
the lock is held by a different context: a blocked context never unblocks
except by the lock being available or already held by the same context. -/
theorem take_waits_forever_blocks_iff_held_by_other
    (r : ReentrantSemaphore) (ctx : Ctx) (w : World) :
    ReentrantSemaphore.take r ctx w
      = (semTake ctx r.m_semaphore WAIT_FOREVER w).map (fun p => (p.1, r, p.2)) ∧
    (semTake ctx r.m_semaphore WAIT_FOREVER w = none ↔
      ∃ st c, w.sems r.m_semaphore = some st ∧ st.owner = some c ∧ c ≠ ctx) := by
  refine ⟨rfl, ?_⟩
  rcases hw : w.sems r.m_semaphore with _ | ⟨o, cnt, opts⟩
  · simp [semTake, hw]
  · rcases o with _ | c
    · simp [semTake, hw]
    · by_cases hc : c = ctx
      · simp [semTake, hw, hc]
      · have hne : WAIT_FOREVER ≠ NO_WAIT := by decide
        simp [semTake, hw, hc, hne]

/-! ### C7 — handle lifecycle ownership. -/

/-- C7: `ReentrantSemaphore`'s destructor is the operation that destroys
the handle — it performs `semDelete`, after which the handle no longer
exists — while the `Synchronized` guard never destroys the handle it
records: its destruction performs only a release (one `giveEv`, no
`deleteEv`) and its construction performs only an acquire (one `takeEv`),
both leaving the existence of every handle in the world unchanged. -/
theorem handle_lifecycle_ownership
    (r : ReentrantSemaphore) (ctx : Ctx) (g : Synchronized) (s : SemId) (w : World) :
    (ReentrantSemaphore.destruct r w).trace = Event.deleteEv r.m_semaphore :: w.trace ∧
    (ReentrantSemaphore.destruct r w).sems r.m_semaphore = none ∧
    (Synchronized.destruct ctx g w).trace = Event.giveEv g.m_semaphore :: w.trace ∧
    (∀ i, ((Synchronized.destruct ctx g w).sems i).isSome = (w.sems i).isSome) ∧
    ((Synchronized.construct ctx s w).map (fun p => p.2.trace)
      = (semTake ctx s WAIT_FOREVER w).map (fun _ => Event.takeEv s :: w.trace)) ∧
    (∀ i, (Synchronized.construct ctx s w).map (fun p => (p.2.sems i).isSome)
      = (Synchronized.construct ctx s w).map (fun _ => (w.sems i).isSome)) := by
  refine ⟨?_, ?_, semGive_trace ctx g.m_semaphore w,
    fun i => semGive_sems_isSome ctx g.m_semaphore w i, ?_, ?_⟩
  · rcases hw : w.sems r.m_semaphore with _ | st <;>
      simp [ReentrantSemaphore.destruct, semDelete, hw]
  · rcases hw : w.sems r.m_semaphore with _ | st <;>
      simp [ReentrantSemaphore.destruct, semDelete, hw]
  · rcases hs : semTake ctx s WAIT_FOREVER w with _ | p
    · simp [Synchronized.construct, hs]
    · simp only [Synchronized.construct, hs, Option.map_some']
      exact congrArg some (semTake_trace_of_some ctx s WAIT_FOREVER w p hs)
  · intro i
    rcases hs : semTake ctx s WAIT_FOREVER w with _ | p
    · simp [Synchronized.construct, hs]
    · simp only [Synchronized.construct, hs, Option.map_some']
      exact congrArg some (semTake_sems_isSome_of_some ctx s WAIT_FOREVER w p hs i)

/-! ### C9 — the convenience macros delimit exactly one guard scope. -/

/-- C9: `CRITICAL_REGION(s) ... END_REGION` (the macro pair's expansion) is
the same protected region as the lexical block `{ Synchronized _sync(s); ... }`:
for every context, handle, body, and initial world the two produce
identical results, so the guard's acquire/release bracketing coincides
exactly with the lexical region between the two tokens. -/
theorem critical_region_matches_lexical_block
    (ctx : Ctx) (s : SemId) (body : World → World × ExitPath) (w : World) :
    criticalRegionExpansion ctx s body w = runScope ctx s body w := rfl

/-! ### C10 — take/give never modify the stored handle. -/

/-- One call to the public take/give interface of a `ReentrantSemaphore`
by some context. -/
inductive RSCall where
  | takeCall (c : Ctx)
  | giveCall (c : Ctx)

/-- Run one take/give call against the object and the world.  A take that
is still blocked has not completed, so it leaves both unchanged. -/
def applyCall (p : ReentrantSemaphore × World) (call : RSCall) :
    ReentrantSemaphore × World :=
  match call with
  | RSCall.takeCall c =>
    match ReentrantSemaphore.take p.1 c p.2 with
    | some q => (q.2.1, q.2.2)
    | none => p
  | RSCall.giveCall c =>
    ((ReentrantSemaphore.give p.1 c p.2).2.1, (ReentrantSemaphore.give p.1 c p.2).2.2)

theorem applyCall_fst (p : ReentrantSemaphore × World) (call : RSCall) :
    (applyCall p call).1 = p.1 := by
  rcases call with c | c
  · rcases h : semTake c p.1.m_semaphore WAIT_FOREVER p.2 with _ | q <;>
      simp [applyCall, ReentrantSemaphore.take, h]
  · rfl

/-- C10 (implicit): `ReentrantSemaphore::take` and `ReentrantSemaphore::give`
never modify the stored handle field `m_semaphore` — after every sequence
of take/give calls, the object still holds the very handle it started
with, unchanged. -/
theorem take_give_never_modify_handle
    (calls : List RSCall) (r : ReentrantSemaphore) (w : World) :
    (calls.foldl applyCall (r, w)).1.m_semaphore = r.m_semaphore := by
  induction calls generalizing r w with
  | nil => rfl
  | cons call rest ih =>
    rw [List.foldl_cons]
    rcases happ : applyCall (r, w) call with ⟨r1, w1⟩
    have h1 : r1 = r := by
      have := applyCall_fst (r, w) call
      rw [happ] at this
      exact this
    subst h1
    exact ih r1 w1

/-! ### C2 — N takes by one context require N gives before another context
can acquire. -/

/-- `n` consecutive `take()` calls by one context (`none` when one of them
is still blocked). -/
def takeN (ctx : Ctx) (s : SemId) : Nat → World → Option World
  | 0, w => some w
  | n + 1, w =>
    match semTake ctx s WAIT_FOREVER w with
    | some p => takeN ctx s n p.2
    | none => none

/-- `n` consecutive `give()` calls by one context. -/
def giveN (ctx : Ctx) (s : SemId) : Nat → World → World
  | 0, w => w
  | n + 1, w => giveN ctx s n (semGive ctx s w).2

theorem semTake_self (ctx : Ctx) (s : SemId) (w : World) (cnt opts : Nat)
    (hw : w.sems s = some ⟨some ctx, cnt, opts⟩) :
    semTake ctx s WAIT_FOREVER w
      = some (OK, pushEv (setSem w s (some ⟨some ctx, cnt + 1, opts⟩)) (Event.takeEv s)) := by
  simp [semTake, hw]

theorem semTake_free (ctx : Ctx) (s : SemId) (w : World) (cnt opts : Nat)
    (hw : w.sems s = some ⟨none, cnt, opts⟩) :
    semTake ctx s WAIT_FOREVER w
      = some (OK, pushEv (setSem w s (some ⟨some ctx, 1, opts⟩)) (Event.takeEv s)) := by
  simp [semTake, hw]

theorem semTake_blocked (ctx c : Ctx) (s : SemId) (w : World) (cnt opts : Nat)
    (hw : w.sems s = some ⟨some c, cnt, opts⟩) (hne : c ≠ ctx) :
    semTake ctx s WAIT_FOREVER w = none := by
  have h2 : WAIT_FOREVER ≠ NO_WAIT := by decide
  simp [semTake, hw, hne, h2]

theorem semGive_self_dec (ctx : Ctx) (s : SemId) (w : World) (cnt opts : Nat)
    (hw : w.sems s = some ⟨some ctx, cnt + 2, opts⟩) :
    semGive ctx s w
      = (OK, pushEv (setSem w s (some ⟨some ctx, cnt + 1, opts⟩)) (Event.giveEv s)) := by
  have hc : ¬ (cnt + 2 ≤ 1) := by omega
  simp [semGive, hw, hc]

theorem semGive_self_last (ctx : Ctx) (s : SemId) (w : World) (cnt opts : Nat)
    (hw : w.sems s = some ⟨some ctx, cnt, opts⟩) (hcnt : cnt ≤ 1) :
    semGive ctx s w
      = (OK, pushEv (setSem w s (some ⟨none, 0, opts⟩)) (Event.giveEv s)) := by
  simp [semGive, hw, hcnt]

theorem takeN_held (ctx : Ctx) (s : SemId) (opts : Nat) :
    ∀ (n k : Nat) (w : World), w.sems s = some ⟨some ctx, k + 1, opts⟩ →
      ∃ w2, takeN ctx s n w = some w2 ∧ w2.sems s = some ⟨some ctx, k + 1 + n, opts⟩ := by
  intro n
  induction n with
  | zero =>
    intro k w hw
    exact ⟨w, rfl, by simpa using hw⟩
  | succ m ih =>
    intro k w hw
    have ht := semTake_self ctx s w (k + 1) opts hw
    have hw2 : (pushEv (setSem w s (some ⟨some ctx, k + 1 + 1, opts⟩)) (Event.takeEv s)).sems s
        = some ⟨some ctx, (k + 1) + 1, opts⟩ := by simp
    obtain ⟨w2, h1, h2⟩ := ih (k + 1) _ hw2
    refine ⟨w2, ?_, ?_⟩
    · simp [takeN, ht, h1]
    · have he : (k + 1) + 1 + m = k + 1 + (m + 1) := by omega
      rw [he] at h2
      exact h2

theorem takeN_from_free (ctx : Ctx) (s : SemId) (opts N : Nat) (hN : 0 < N)
    (w : World) (hw : w.sems s = some ⟨none, 0, opts⟩) :
    ∃ wN, takeN ctx s N w = some wN ∧ wN.sems s = some ⟨some ctx, N, opts⟩ := by
  obtain ⟨m, rfl⟩ : ∃ m, N = m + 1 := ⟨N - 1, by omega⟩
  have ht := semTake_free ctx s w 0 opts hw
  have hw1 : (pushEv (setSem w s (some ⟨some ctx, 1, opts⟩)) (Event.takeEv s)).sems s
      = some ⟨some ctx, 0 + 1, opts⟩ := by simp
  obtain ⟨wN, h1, h2⟩ := takeN_held ctx s opts m 0 _ hw1
  refine ⟨wN, ?_, ?_⟩
  · simp [takeN, ht, h1]
  · have he : 0 + 1 + m = m + 1 := by omega
    rw [he] at h2
    exact h2

theorem giveN_partial (ctx : Ctx) (s : SemId) (opts : Nat) :
    ∀ (k n : Nat) (w : World), 0 < n → w.sems s = some ⟨some ctx, k + n, opts⟩ →
      (giveN ctx s k w).sems s = some ⟨some ctx, n, opts⟩ := by
  intro k
  induction k with
  | zero =>
    intro n w hn hw
    simpa [giveN] using hw
  | succ m ih =>
    intro n w hn hw
    obtain ⟨c2, he1, he2⟩ : ∃ c2, m + 1 + n = c2 + 2 ∧ c2 + 1 = m + n :=
      ⟨m + n - 1, by omega, by omega⟩
    rw [he1] at hw
    have hg := semGive_self_dec ctx s w c2 opts hw
    have hw1 : (pushEv (setSem w s (some ⟨some ctx, c2 + 1, opts⟩)) (Event.giveEv s)).sems s
        = some ⟨some ctx, m + n, opts⟩ := by simp [he2]
    have hrest := ih n _ hn hw1
    simpa [giveN, hg] using hrest

theorem giveN_succ_last (ctx : Ctx) (s : SemId) :
    ∀ (n : Nat) (w : World),
      giveN ctx s (n + 1) w = (semGive ctx s (giveN ctx s n w)).2 := by
  intro n
  induction n with
  | zero => intro w; rfl
  | succ m ih =>
    intro w
    calc giveN ctx s (m + 1 + 1) w
        = giveN ctx s (m + 1) (semGive ctx s w).2 := by simp [giveN]
      _ = (semGive ctx s (giveN ctx s m (semGive ctx s w).2)).2 := ih _
      _ = (semGive ctx s (giveN ctx s (m + 1) w)).2 := by simp [giveN]

theorem giveN_release (ctx : Ctx) (s : SemId) (opts N : Nat) (hN : 0 < N)
    (w : World) (hw : w.sems s = some ⟨some ctx, N, opts⟩) :
    (giveN ctx s N w).sems s = some ⟨none, 0, opts⟩ := by
  obtain ⟨m, rfl⟩ : ∃ m, N = m + 1 := ⟨N - 1, by omega⟩
  have hst : w.sems s = some ⟨some ctx, m + 1, opts⟩ := hw
  have h1 : (giveN ctx s m w).sems s = some ⟨some ctx, 1, opts⟩ :=
    giveN_partial ctx s opts m 1 w (by omega) hst
  have hg := semGive_self_last ctx s (giveN ctx s m w) 1 opts h1 (by omega)
  rw [giveN_succ_last ctx s m w, hg]
  simp

/-- C2: for every sequence of `N` `take()` calls by one context on a
semaphore starting free, all `N` takes complete, and the lock remains held
by that context — so any other context's `take` stays blocked — after
every number `k < N` of `give()` calls by the owner; only after exactly
`N` gives may the other context's `take` complete (and it then succeeds). -/
theorem reentrant_lock_held_until_n_gives
    (c cOther : Ctx) (s : SemId) (opts N : Nat) (w : World)
    (hne : cOther ≠ c) (hN : 0 < N)
    (hfree : w.sems s = some { owner := none, count := 0, options := opts }) :
    ∃ wN, takeN c s N w = some wN ∧
      wN.sems s = some { owner := some c, count := N, options := opts } ∧
      (∀ k, k < N → semTake cOther s WAIT_FOREVER (giveN c s k wN) = none) ∧
      ∃ q, semTake cOther s WAIT_FOREVER (giveN c s N wN) = some q ∧ q.1 = OK := by
  obtain ⟨wN, h1, h2⟩ := takeN_from_free c s opts N hN w hfree
  refine ⟨wN, h1, h2, ?_, ?_⟩
  · intro k hk
    have he : k + (N - k) = N := by omega
    have hst : wN.sems s = some ⟨some c, k + (N - k), opts⟩ := by
      rw [he]
      exact h2
    have hpart := giveN_partial c s opts k (N - k) wN (by omega) hst
    exact semTake_blocked cOther c s _ (N - k) opts hpart (Ne.symm hne)
  · have hrel := giveN_release c s opts N hN wN h2
    exact ⟨_, semTake_free cOther s (giveN c s N wN) 0 opts hrel, rfl⟩

theorem reentrant_lock_held_until_n_gives_witness :
    (1 : Ctx) ≠ 0 ∧ (0 : Nat) < 1 ∧
    (∃ wN, takeN 0 0 1 initWorld = some wN ∧
      wN.sems 0 = some { owner := some 0, count := 1, options := 5 } ∧
      (∀ k, k < 1 → semTake 1 0 WAIT_FOREVER (giveN 0 0 k wN) = none) ∧
      ∃ q, semTake 1 0 WAIT_FOREVER (giveN 0 0 1 wN) = some q ∧ q.1 = OK) :=
  ⟨by decide, by decide,
    reentrant_lock_held_until_n_gives 0 1 0 5 1 initWorld (by decide) (by decide) rfl⟩

/-! ### C3 — status codes of `take()` and `give()`. -/

theorem semTake_status (ctx : Ctx) (s : SemId) (t : Int) (w : World)
    (p : Int × World) (h : semTake ctx s t w = some p) :
    p.1 = OK ∨ (p.1 = ERROR ∧ p.2.errno ≠ 0) := by
  rcases hw : w.sems s with _ | ⟨o, cnt, opts⟩
  · simp [semTake, hw] at h
    subst h
    exact Or.inr ⟨rfl, by simp [pushEv, S_objLib_OBJ_ID_ERROR]⟩
  · rcases o with _ | c
    · simp [semTake, hw] at h
      subst h
      exact Or.inl rfl
    · by_cases hc : c = ctx
      · simp [semTake, hw, hc] at h
        subst h
        exact Or.inl rfl
      · by_cases ht : t = NO_WAIT
        · simp [semTake, hw, hc, ht] at h
          subst h
          exact Or.inr ⟨rfl, by simp [pushEv, S_objLib_OBJ_UNAVAILABLE]⟩
        · simp [semTake, hw, hc, ht] at h

theorem semGive_status (ctx : Ctx) (s : SemId) (w : World) :
    (semGive ctx s w).1 = OK ∨
      ((semGive ctx s w).1 = ERROR ∧ (semGive ctx s w).2.errno ≠ 0) := by
  rcases hw : w.sems s with _ | ⟨o, cnt, opts⟩
  · exact Or.inr ⟨by simp [semGive, hw], by simp [semGive, hw, pushEv, S_objLib_OBJ_ID_ERROR]⟩
  · rcases o with _ | c
    · exact Or.inr ⟨by simp [semGive, hw],
        by simp [semGive, hw, pushEv, S_semLib_INVALID_OPERATION]⟩
    · by_cases hc : c = ctx
      · by_cases hcnt : cnt ≤ 1
        · exact Or.inl (by simp [semGive, hw, hc, hcnt])
        · exact Or.inl (by simp [semGive, hw, hc, hcnt])
      · exact Or.inr ⟨by simp [semGive, hw, hc],
          by simp [semGive, hw, hc, pushEv, S_semLib_INVALID_OPERATION]⟩

/-- C3: every completed `ReentrantSemaphore::take` returns status `0` (OK)
on success and `-1` (ERROR) on failure with the platform error recorded in
the process-wide `errno` slot; `ReentrantSemaphore::give` returns a status
of the same shape. -/
theorem take_give_status_shape
    (r : ReentrantSemaphore) (ctx : Ctx) (w w2 : World)
    (st : Int) (r2 : ReentrantSemaphore)
    (htake : ReentrantSemaphore.take r ctx w = some (st, r2, w2)) :
    (st = OK ∨ (st = ERROR ∧ w2.errno ≠ 0)) ∧
    ((ReentrantSemaphore.give r ctx w).1 = OK ∨
      ((ReentrantSemaphore.give r ctx w).1 = ERROR ∧
        (ReentrantSemaphore.give r ctx w).2.2.errno ≠ 0)) := by
  constructor
  · rcases hs : semTake ctx r.m_semaphore WAIT_FOREVER w with _ | p
    · simp [ReentrantSemaphore.take, hs] at htake
    · simp only [ReentrantSemaphore.take, hs, Option.map_some', Option.some.injEq,
        Prod.mk.injEq] at htake
      obtain ⟨h1, _, h3⟩ := htake
      subst h1
      subst h3
      exact semTake_status ctx r.m_semaphore WAIT_FOREVER w p hs
  · exact semGive_status ctx r.m_semaphore w

/-- Result of context 0 taking semaphore 0 of `initWorld` through the
wrapper (a completing, successful take). -/
def takeTriple0 : Int × ReentrantSemaphore × World :=
  (ReentrantSemaphore.take { m_semaphore := 0 } 0 initWorld).getD
    (0, { m_semaphore := 0 }, initWorld)

theorem take_give_status_shape_witness :
    (takeTriple0.1 = OK ∨ (takeTriple0.1 = ERROR ∧ takeTriple0.2.2.errno ≠ 0)) ∧
    ((ReentrantSemaphore.give { m_semaphore := 0 } 0 initWorld).1 = OK ∨
      ((ReentrantSemaphore.give { m_semaphore := 0 } 0 initWorld).1 = ERROR ∧
        (ReentrantSemaphore.give { m_semaphore := 0 } 0 initWorld).2.2.errno ≠ 0)) :=
  take_give_status_shape { m_semaphore := 0 } 0 initWorld takeTriple0.2.2
    takeTriple0.1 takeTriple0.2.1 rfl

/-! ### C5 — construction creates a fresh lock with the required mode. -/

/-- C5: the `ReentrantSemaphore` constructor creates a fresh native lock —
a handle not previously allocated — by calling `semMCreate` with
`SEM_Q_PRIORITY | SEM_DELETE_SAFE` (priority-ordered, deletion-safe
reentrant mutex mode), and stores the handle that call returned. -/
theorem reentrant_semaphore_construct_fresh
    (w : World) (hwf : w.wf) :
    (ReentrantSemaphore.construct w).1.m_semaphore
        = (semMCreate (SEM_Q_PRIORITY ||| SEM_DELETE_SAFE) w).1 ∧
    w.sems (ReentrantSemaphore.construct w).1.m_semaphore = none ∧
    (ReentrantSemaphore.construct w).2.sems (ReentrantSemaphore.construct w).1.m_semaphore
      = some { owner := none, count := 0,
               options := SEM_Q_PRIORITY ||| SEM_DELETE_SAFE } := by
  refine ⟨rfl, ?_, ?_⟩
  · exact hwf w.nextId (le_refl w.nextId)
  · simp [ReentrantSemaphore.construct, semMCreate, pushEv]

theorem reentrant_semaphore_construct_fresh_witness :
    World.wf initWorld ∧
    ((ReentrantSemaphore.construct initWorld).1.m_semaphore
        = (semMCreate (SEM_Q_PRIORITY ||| SEM_DELETE_SAFE) initWorld).1 ∧
     initWorld.sems (ReentrantSemaphore.construct initWorld).1.m_semaphore = none ∧
     (ReentrantSemaphore.construct initWorld).2.sems
         (ReentrantSemaphore.construct initWorld).1.m_semaphore
       = some { owner := none, count := 0,
                options := SEM_Q_PRIORITY ||| SEM_DELETE_SAFE }) := by
  have hwf : World.wf initWorld := by
    intro i hi
    have h1 : (1 : Nat) ≤ i := hi
    have h0 : i ≠ 0 := Nat.one_le_iff_ne_zero.mp h1
    simp [initWorld, h0]
  exact ⟨hwf, reentrant_semaphore_construct_fresh initWorld hwf⟩

/-! ### C8 — neither class is copyable or assignable. -/

/-- Kinds of C++ special members and methods the two classes declare. -/
inductive MemberKind where
  | defaultCtor
  | ctorFromSemId
  | ctorFromReentrantSemaphoreRef
  | copyCtor
  | copyAssign
  | dtor
  | takeMethod
  | giveMethod
deriving DecidableEq

/-- C++ access level of a member declaration. -/
inductive Access where
  | publicAcc
  | privateAcc
deriving DecidableEq

/-- One member declaration: its kind and its access level. -/
structure Member where
  kind : MemberKind
  access : Access
deriving DecidableEq

/-- Modelled from the spec: `DISALLOW_COPY_AND_ASSIGN(TypeName)` comes from
`Base.h`, which is not among the provided sources; per the spec ("Not
copyable or assignable") it declares the copy constructor and the copy
assignment operator in the private section, making both unusable from the
public interface. -/
def disallowCopyAndAssign : List Member :=
  [{ kind := MemberKind.copyCtor, access := Access.privateAcc },
   { kind := MemberKind.copyAssign, access := Access.privateAcc }]

/-- Member declarations of `class ReentrantSemaphore`
(src/Synchronized.h lines 31–62): public default constructor, destructor,
`take`, `give`; `DISALLOW_COPY_AND_ASSIGN(ReentrantSemaphore)` in the
private section. -/
def reentrantSemaphoreMembers : List Member :=
  [{ kind := MemberKind.defaultCtor, access := Access.publicAcc },
   { kind := MemberKind.dtor, access := Access.publicAcc },
   { kind := MemberKind.takeMethod, access := Access.publicAcc },
   { kind := MemberKind.giveMethod, access := Access.publicAcc }]
  ++ disallowCopyAndAssign

/-- Member declarations of `class Synchronized`
(src/Synchronized.h lines 82–92): public constructors from `SEM_ID` and
from `ReentrantSemaphore&` and the destructor;
`DISALLOW_COPY_AND_ASSIGN(Synchronized)` in the private section. -/
def synchronizedMembers : List Member :=
  [{ kind := MemberKind.ctorFromSemId, access := Access.publicAcc },
   { kind := MemberKind.ctorFromReentrantSemaphoreRef, access := Access.publicAcc },
   { kind := MemberKind.dtor, access := Access.publicAcc }]
  ++ disallowCopyAndAssign

/-- A class is copyable or assignable at the public interface exactly when
it declares a public copy constructor or a public copy assignment
operator. -/
def publiclyCopyableOrAssignable (members : List Member) : Bool :=
  members.any (fun m =>
    (decide (m.kind = MemberKind.copyCtor) || decide (m.kind = MemberKind.copyAssign))
      && decide (m.access = Access.publicAcc))

/-- C8: neither `ReentrantSemaphore` nor `Synchronized` is copyable or
assignable at the public interface: both declare their copy constructor
and copy assignment operator, but only privately
(`DISALLOW_COPY_AND_ASSIGN`), so no public copy construction or copy
assignment is possible. -/
theorem not_copyable_or_assignable :
    publiclyCopyableOrAssignable reentrantSemaphoreMembers = false ∧
    publiclyCopyableOrAssignable synchronizedMembers = false ∧
    disallowCopyAndAssign.all (fun m => decide (m.access = Access.privateAcc)) = true := by
  decide
